import Mathlib

/-!
Shallow embedding of the Echo backend's real-time subtitle broadcast pipeline
(`src/echo/ws.py`, `src/echo/main.py` `lecture_socket`, `src/echo/utterances.py`
`get_max_seq`, `src/echo/translate.py` `translate_text`).

Python dicts are modelled as association lists with unique keys (`getKey`,
`setKey`, `eraseKey`); Python sets of WebSocket handles as duplicate-free
lists of `Nat` handle ids; a Python function that may raise is modelled with
an `Except`/`Option` result; the database and the HTTP translation service
are abstracted as explicit inputs (the persisted rows, respectively the
outcome of each HTTP attempt).
-/

namespace Echo

/-- Lookup in an association list modelling a Python dict (first matching key). -/
def getKey {β : Type} (k : Nat) : List (Nat × β) → Option β
  | [] => none
  | (k', v) :: rest => if k' = k then some v else getKey k rest

/-- Update/insert in an association list modelling `d[k] = v` on a Python dict. -/
def setKey {β : Type} (k : Nat) (v : β) : List (Nat × β) → List (Nat × β)
  | [] => [(k, v)]
  | (k', v') :: rest => if k' = k then (k, v) :: rest else (k', v') :: setKey k v rest

/-- Key removal modelling `del d[k]` / `d.pop(k, None)` on a Python dict
(keys are unique in a dict, so removing every matching entry is the same). -/
def eraseKey {β : Type} (k : Nat) (m : List (Nat × β)) : List (Nat × β) :=
  m.filter (fun e => decide (e.1 ≠ k))

/-- The module-level mutable state of `echo/ws.py`: `_rooms` (lecture id →
set of joined WebSocket handles) and `_seq_counters` (lecture id → counter). -/
structure WsState where
  rooms : List (Nat × List Nat)
  seqCounters : List (Nat × Nat)
deriving DecidableEq, Repr

/-- The initial state: both module-level dicts empty. -/
def wsEmpty : WsState := ⟨[], []⟩

/-- One persisted row of the `utterances` table. -/
structure UtteranceRow where
  lecture_id : Nat
  seq : Nat
  start_ms : Nat
  end_ms : Nat
  text_en : String
  text_zh : String
  source : String
deriving DecidableEq, Repr

/-- The SQL `SELECT COALESCE(MAX(seq), 0) FROM utterances WHERE lecture_id = %s
AND source = %s` of `get_max_seq`, evaluated over the table contents. -/
def sql_max_seq (rows : List UtteranceRow) (lecture_id : Nat) (source : String) : Nat :=
  ((rows.filter (fun r => decide (r.lecture_id = lecture_id ∧ r.source = source))).map
    (fun r => r.seq)).foldl max 0

/-- `utterances.get_max_seq`: runs the max-seq query; any exception from the
database (modelled as `Except.error`) is caught, logged and turned into 0. -/
def get_max_seq (query : Except Unit (List UtteranceRow)) (lecture_id : Nat)
    (source : String) : Nat :=
  match query with
  | .error _ => 0
  | .ok rows => sql_max_seq rows lecture_id source

/-- `ws.init_seq_counter`: under the lock, if `lecture_id not in _seq_counters`,
seed the counter from `get_max_seq(pool, lecture_id, source="realtime")`. -/
def init_seq_counter (lecture_id : Nat) (query : Except Unit (List UtteranceRow))
    (s : WsState) : WsState :=
  if (getKey lecture_id s.seqCounters).isSome then s
  else { s with seqCounters :=
          setKey lecture_id (get_max_seq query lecture_id "realtime") s.seqCounters }

/-- `ws.next_seq`: `_seq_counters[lecture_id] = _seq_counters.get(lecture_id, 0) + 1`
and return the new value. The function never raises. -/
def next_seq (lecture_id : Nat) (s : WsState) : Nat × WsState :=
  let c := (getKey lecture_id s.seqCounters).getD 0 + 1
  (c, { s with seqCounters := setKey lecture_id c s.seqCounters })

/-- `ws.join_room`: `_rooms[lecture_id].add(websocket)` — the defaultdict
creates an empty set when absent, and set `add` inserts without duplicating. -/
def join_room (lecture_id : Nat) (ws : Nat) (s : WsState) : WsState :=
  let room := (getKey lecture_id s.rooms).getD []
  { s with rooms := setKey lecture_id (room.insert ws) s.rooms }

/-- `ws.leave_room`: defaultdict access creates an empty set when absent,
`discard` removes the handle if present; if the room is then empty the bucket
is deleted and `_seq_counters.pop(lecture_id, None)` drops the counter. -/
def leave_room (lecture_id : Nat) (ws : Nat) (s : WsState) : WsState :=
  let room := (getKey lecture_id s.rooms).getD []
  let room' := room.erase ws
  if room' = [] then
    { rooms := eraseKey lecture_id s.rooms,
      seqCounters := eraseKey lecture_id s.seqCounters }
  else
    { s with rooms := setKey lecture_id room' s.rooms }

/-- `ws.broadcast`'s inner `_send_to_one`: skips the excluded handle, returns
the handle itself when its send raised or timed out (`fails ws = true`), and
`none` on a successful or skipped send. -/
def send_to_one (exclude : Option Nat) (fails : Nat → Bool) (ws : Nat) : Option Nat :=
  if some ws = exclude then none
  else if fails ws then some ws else none

/-- `ws.broadcast`: take a snapshot of the room (returning early when the room
is absent or empty), concurrently run `_send_to_one` for every handle in the
snapshot, then `leave_room` every dead handle. Returns the new state together
with the list of handles whose send was attempted and the dead list, so the
execution of the fan-out is visible to the theorems. `fails` abstracts which
sends error or time out. -/
def broadcast_run (lecture_id : Nat) (exclude : Option Nat) (fails : Nat → Bool)
    (s : WsState) : WsState × List Nat × List Nat :=
  match getKey lecture_id s.rooms with
  | none => (s, [], [])
  | some room =>
    if room = [] then (s, [], [])
    else
      let attempted := room.filter (fun ws => decide (some ws ≠ exclude))
      let dead := room.filterMap (send_to_one exclude fails)
      (dead.foldl (fun st ws => leave_room lecture_id ws st) s, attempted, dead)

/-- The state effect of `ws.broadcast` (the Python function returns `None`). -/
def broadcast (lecture_id : Nat) (exclude : Option Nat) (fails : Nat → Bool)
    (s : WsState) : WsState :=
  (broadcast_run lecture_id exclude fails s).1

/-- Membership of handle `ws` in the room of `lecture_id` (an absent bucket is
the empty room). -/
def memRoom (s : WsState) (lecture_id : Nat) (ws : Nat) : Prop :=
  ws ∈ (getKey lecture_id s.rooms).getD []

instance (s : WsState) (l ws : Nat) : Decidable (memRoom s l ws) := by
  unfold memRoom; infer_instance

/-- The result dict of `asr.transcribe`: `{text, error, code}`, with
`code = 2001` on ASR failure and empty `text` with null error on silence. -/
structure AsrResult where
  text : String
  error : Option String
  code : Option Nat
deriving DecidableEq, Repr

/-- The result dict of `translate.translate_text`: `{text, error, code}`, with
`code = 3001` on translation failure. -/
structure TranslateResult where
  text : String
  error : Option String
  code : Option Nat
deriving DecidableEq, Repr

/-- The decoded JSON body of one Baidu translate response: the optional
`error_code`/`error_msg` pair and, for each `trans_result` item, its optional
`dst` field. -/
structure BaiduData where
  error_code : Option Nat
  error_msg : Option String
  trans_result : List (Option String)
deriving DecidableEq, Repr

/-- Outcome of one HTTP attempt inside `translate_text`'s retry loop: a
timeout, another exception, or a decoded response body. -/
inductive HttpAttempt where
  | timeout
  | exc (msg : String)
  | ok (data : BaiduData)
deriving DecidableEq, Repr

/-- The response-processing part of `translate_text`: a body with an
`error_code` or an empty `trans_result` yields code 3001 and empty text;
otherwise the first item's `dst` (defaulting to `""`) is returned. -/
def handle_response (data : BaiduData) : TranslateResult :=
  match data.error_code with
  | some ec => ⟨"", some ("baidu_error_" ++ toString ec), some 3001⟩
  | none =>
    match data.trans_result with
    | [] => ⟨"", some "empty_result", some 3001⟩
    | first :: _ => ⟨first.getD "", none, none⟩

/-- The retry loop `for attempt in range(TRANSLATE_RETRIES + 1)` of
`translate_text`, driven by the list of per-attempt outcomes (the list has
length `TRANSLATE_RETRIES + 1`; a timeout on the last attempt returns the
timeout error, an earlier timeout continues with the next attempt; any other
exception returns immediately; the `[]` case is the unreachable fall-through
after the loop). -/
def translate_loop : List HttpAttempt → TranslateResult
  | [] => ⟨"", some "translate_failed", some 3001⟩
  | .timeout :: rest =>
    if rest.isEmpty then ⟨"", some "translate_timeout", some 3001⟩
    else translate_loop rest
  | .exc m :: _ => ⟨"", some ("translate_failed: " ++ m), some 3001⟩
  | .ok data :: _ => handle_response data

/-- `translate.translate_text`: missing Baidu credentials yield code 3001;
whitespace-only input yields empty text with null error and null code;
otherwise the retry loop runs over the HTTP attempts. -/
def translate_text (configured : Bool) (text : String)
    (attempts : List HttpAttempt) : TranslateResult :=
  if ¬ configured then ⟨"", some "translate_not_configured", some 3001⟩
  else if text.trim = "" then ⟨"", none, none⟩
  else translate_loop attempts

/-- The subtitle message built in `lecture_socket` and passed to `broadcast`
(and, field for field, to `create_utterance` with `source="realtime"`). -/
structure SubtitleMsg where
  lecture_id : Nat
  seq : Nat
  start_ms : Nat
  end_ms : Nat
  text_en : String
  text_zh : String
deriving DecidableEq, Repr

/-- Observable outcome of processing one binary audio frame in
`lecture_socket`'s receive loop. -/
structure FrameResult where
  /-- The `{type:"error", code, message}` sent back to the originating
  connection only, when the ASR failed. -/
  errorToSender : Option (Nat × String)
  /-- The subtitle message handed to `broadcast`, when one was built. -/
  broadcastMsg : Option SubtitleMsg
  /-- The row handed to `submit_task(create_utterance, ...)`, when one was. -/
  persisted : Option UtteranceRow
  /-- The `ws.py` module state after the frame. -/
  state : WsState
  /-- The connection's cumulative offset after the frame. -/
  cumulative_ms : Nat
deriving Repr

/-- One iteration of `lecture_socket`'s audio-frame branch (`main.py`):
ASR code 2001 sends an error to the sender and skips the frame; empty ASR
text (silence) skips the frame silently; otherwise the translation text is
taken as `text_zh` regardless of its error code, a sequence number is drawn,
`start_ms`/`end_ms` are computed from the cumulative offset and
`len(frame) // 32`, the subtitle is broadcast (no excluded handle) and the
same fields are submitted for persistence. `frame_len` is the byte length of
the frame, `asr`/`tr` the collaborator results, `fails` the send-failure
behaviour of the room's handles during the broadcast. -/
def process_frame (lecture_id : Nat) (frame_len : Nat) (asr : AsrResult)
    (tr : TranslateResult) (fails : Nat → Bool) (s : WsState)
    (cumulative_ms : Nat) : FrameResult :=
  if asr.code = some 2001 then
    ⟨some (2001, asr.error.getD "ASR failed"), none, none, s, cumulative_ms⟩
  else
    let text_en := asr.text
    if text_en = "" then ⟨none, none, none, s, cumulative_ms⟩
    else
      let text_zh := tr.text
      let seqState := next_seq lecture_id s
      let seq := seqState.1
      let frame_duration_ms := frame_len / 32
      let start_ms := cumulative_ms
      let end_ms := cumulative_ms + frame_duration_ms
      let msg : SubtitleMsg := ⟨lecture_id, seq, start_ms, end_ms, text_en, text_zh⟩
      let s' := broadcast lecture_id none fails seqState.2
      let row : UtteranceRow := ⟨lecture_id, seq, start_ms, end_ms, text_en, text_zh, "realtime"⟩
      ⟨none, some msg, some row, s', end_ms⟩

/-- States of the `ws.py` registry reachable from the empty module state by
arbitrary `join_room`/`leave_room` calls. -/
inductive Reachable : WsState → Prop
  | init : Reachable wsEmpty
  | join (l ws : Nat) {s : WsState} : Reachable s → Reachable (join_room l ws s)
  | leave (l ws : Nat) {s : WsState} : Reachable s → Reachable (leave_room l ws s)

/-- States reachable when callers respect the intended usage discipline:
a handle is only joined while it is in no room. -/
inductive ReachableDisciplined : WsState → Prop
  | init : ReachableDisciplined wsEmpty
  | join (l ws : Nat) {s : WsState} : ReachableDisciplined s →
      (∀ l', ¬ memRoom s l' ws) → ReachableDisciplined (join_room l ws s)
  | leave (l ws : Nat) {s : WsState} : ReachableDisciplined s →
      ReachableDisciplined (leave_room l ws s)

/-- No lecture id maps to an empty handle set in the room registry. -/
def noEmptyRooms (s : WsState) : Prop :=
  ∀ l r, getKey l s.rooms = some r → r ≠ []

/-- Every handle is in the room of at most one lecture. -/
def atMostOneRoom (s : WsState) : Prop :=
  ∀ l₁ l₂ ws, memRoom s l₁ ws → memRoom s l₂ ws → l₁ = l₂

/-- Modelled from the spec: the Sequence Ledger contract for `next`
("atomically increments and returns the session's counter; fails with
`SessionNotInitialized` if called before `initialize`"), written from the
spec's words for comparison with the source's `next_seq`, which never fails.
`none` is the `SessionNotInitialized` failure. -/
def next_seq_specContract (lecture_id : Nat) (s : WsState) : Option (Nat × WsState) :=
  match getKey lecture_id s.seqCounters with
  | none => none
  | some c => some (c + 1, { s with seqCounters := setKey lecture_id (c + 1) s.seqCounters })

theorem getKey_setKey_self {β : Type} (k : Nat) (v : β) (m : List (Nat × β)) :
    getKey k (setKey k v m) = some v := by
  induction m with
  | nil => simp [setKey, getKey]
  | cons e rest ih =>
    obtain ⟨a, b⟩ := e
    by_cases h : a = k
    · simp [setKey, h, getKey]
    · simp [setKey, h, getKey, ih]

theorem getKey_setKey_ne {β : Type} (k k' : Nat) (v : β) (m : List (Nat × β))
    (h : k' ≠ k) : getKey k' (setKey k v m) = getKey k' m := by
  have hkk' : k ≠ k' := Ne.symm h
  induction m with
  | nil => simp [setKey, getKey, hkk']
  | cons e rest ih =>
    obtain ⟨a, b⟩ := e
    by_cases ha : a = k
    · subst ha
      simp [setKey, getKey, hkk']
    · by_cases ha' : a = k'
      · subst ha'
        simp [setKey, getKey, h]
      · simp [setKey, ha, getKey, ha', ih]

theorem getKey_eraseKey_self {β : Type} (k : Nat) (m : List (Nat × β)) :
    getKey k (eraseKey k m) = none := by
  induction m with
  | nil => simp [eraseKey, getKey]
  | cons e rest ih =>
    obtain ⟨a, b⟩ := e
    by_cases h : a = k
    · simpa [eraseKey, h] using ih
    · simpa [eraseKey, getKey, h] using ih

theorem getKey_eraseKey_ne {β : Type} (k k' : Nat) (m : List (Nat × β))
    (h : k' ≠ k) : getKey k' (eraseKey k m) = getKey k' m := by
  induction m with
  | nil => simp [eraseKey]
  | cons e rest ih =>
    obtain ⟨a, b⟩ := e
    by_cases ha : a = k
    · subst ha
      have hak' := Ne.symm h
      simpa [eraseKey, getKey, hak'] using ih
    · by_cases ha' : a = k'
      · subst ha'
        simp [eraseKey, getKey, ha]
      · simpa [eraseKey, getKey, ha, ha'] using ih

theorem eraseKey_of_getKey_none {β : Type} (k : Nat) (m : List (Nat × β))
    (h : getKey k m = none) : eraseKey k m = m := by
  induction m with
  | nil => rfl
  | cons e rest ih =>
    obtain ⟨a, b⟩ := e
    by_cases ha : a = k
    · simp [getKey, ha] at h
    · simp [getKey, ha] at h
      simp [eraseKey, ha] at ih ⊢
      exact ih h

theorem setKey_of_getKey_some {β : Type} (k : Nat) (v : β) (m : List (Nat × β))
    (h : getKey k m = some v) : setKey k v m = m := by
  induction m with
  | nil => simp [getKey] at h
  | cons e rest ih =>
    obtain ⟨a, b⟩ := e
    by_cases ha : a = k
    · subst ha
      simp [getKey] at h
      simp [setKey, h]
    · simp [getKey, ha] at h
      simp [setKey, ha, ih h]

theorem getKey_rooms_leave_room_none (l ws : Nat) (s : WsState)
    (h : getKey l s.rooms = none) :
    getKey l (leave_room l ws s).rooms = none := by
  unfold leave_room
  simp [h, getKey_eraseKey_self]

theorem getKey_rooms_leave_room_some (l ws : Nat) (s : WsState) (r : List Nat)
    (h : getKey l s.rooms = some r) :
    getKey l (leave_room l ws s).rooms =
      if r.erase ws = [] then none else some (r.erase ws) := by
  unfold leave_room
  by_cases he : r.erase ws = []
  · simp [h, he, getKey_eraseKey_self]
  · simp [h, he, getKey_setKey_self]

theorem memRoom_leave_room (l ws w : Nat) (s : WsState)
    (hnd : ∀ r, getKey l s.rooms = some r → r.Nodup) :
    memRoom (leave_room l ws s) l w ↔ memRoom s l w ∧ w ≠ ws := by
  unfold memRoom
  cases h : getKey l s.rooms with
  | none =>
    rw [getKey_rooms_leave_room_none l ws s h]
    simp
  | some r =>
    have hr := hnd r h
    rw [getKey_rooms_leave_room_some l ws s r h]
    by_cases he : r.erase ws = []
    · rw [if_pos he]
      simp only [Option.getD_none, Option.getD_some, List.not_mem_nil, false_iff]
      rintro ⟨hw, hne⟩
      have hmem : w ∈ r.erase ws := hr.mem_erase_iff.mpr ⟨hne, hw⟩
      rw [he] at hmem
      exact absurd hmem (List.not_mem_nil w)
    · rw [if_neg he]
      simp only [Option.getD_some]
      constructor
      · intro hw
        have hw' := hr.mem_erase_iff.mp hw
        exact ⟨hw'.2, hw'.1⟩
      · rintro ⟨hw, hne⟩
        exact hr.mem_erase_iff.mpr ⟨hne, hw⟩

theorem leave_room_nodup (l ws : Nat) (s : WsState)
    (hnd : ∀ r, getKey l s.rooms = some r → r.Nodup) :
    ∀ r, getKey l (leave_room l ws s).rooms = some r → r.Nodup := by
  intro r hr
  cases h : getKey l s.rooms with
  | none =>
    rw [getKey_rooms_leave_room_none l ws s h] at hr
    cases hr
  | some r₀ =>
    rw [getKey_rooms_leave_room_some l ws s r₀ h] at hr
    by_cases he : r₀.erase ws = []
    · rw [if_pos he] at hr
      cases hr
    · rw [if_neg he] at hr
      cases hr
      exact (hnd r₀ h).erase ws

theorem memRoom_foldl_leave (l w : Nat) (ds : List Nat) (s : WsState)
    (hnd : ∀ r, getKey l s.rooms = some r → r.Nodup) :
    memRoom (ds.foldl (fun st ws => leave_room l ws st) s) l w ↔
      memRoom s l w ∧ w ∉ ds := by
  induction ds generalizing s with
  | nil => simp
  | cons d ds ih =>
    rw [List.foldl_cons]
    rw [ih (leave_room l d s) (leave_room_nodup l d s hnd)]
    rw [memRoom_leave_room l d w s hnd]
    simp only [List.mem_cons]
    tauto

theorem send_to_one_eq_some (exclude : Option Nat) (fails : Nat → Bool) (a b : Nat) :
    send_to_one exclude fails a = some b ↔
      b = a ∧ some a ≠ exclude ∧ fails a = true := by
  unfold send_to_one
  by_cases h1 : some a = exclude
  · simp [h1]
  · by_cases h2 : fails a
    · simp [h1, h2, eq_comm]
    · simp [h1, h2]

theorem handle_response_code_imp_empty (data : BaiduData)
    (h : (handle_response data).code ≠ none) : (handle_response data).text = "" := by
  obtain ⟨ec, em, tr⟩ := data
  cases ec with
  | some e => rfl
  | none =>
    cases tr with
    | nil => rfl
    | cons first rest => simp [handle_response] at h

theorem translate_loop_code_imp_empty (attempts : List HttpAttempt)
    (h : (translate_loop attempts).code ≠ none) :
    (translate_loop attempts).text = "" := by
  induction attempts with
  | nil => rfl
  | cons a rest ih =>
    cases a with
    | timeout =>
      by_cases hrest : rest.isEmpty
      · simp [translate_loop, hrest]
      · have e : translate_loop (HttpAttempt.timeout :: rest) = translate_loop rest := by
          simp [translate_loop, hrest]
        rw [e] at h
        rw [e]
        exact ih h
    | exc m => rfl
    | ok data =>
      simp only [translate_loop] at h ⊢
      exact handle_response_code_imp_empty data h

theorem translate_text_code_imp_empty (configured : Bool) (text : String)
    (attempts : List HttpAttempt)
    (h : (translate_text configured text attempts).code ≠ none) :
    (translate_text configured text attempts).text = "" := by
  cases configured with
  | false => simp [translate_text]
  | true =>
    have e1 : translate_text true text attempts =
        (if text.trim = "" then ⟨"", none, none⟩ else translate_loop attempts) := by
      simp [translate_text]
    rw [e1] at h ⊢
    by_cases ht : text.trim = ""
    · rw [if_pos ht] at h
      simp at h
    · rw [if_neg ht] at h ⊢
      exact translate_loop_code_imp_empty attempts h

theorem broadcast_noFail (l : Nat) (exclude : Option Nat) (s : WsState) :
    broadcast l exclude (fun _ => false) s = s := by
  unfold broadcast broadcast_run
  cases h : getKey l s.rooms with
  | none => rfl
  | some room =>
    by_cases he : room = []
    · simp [he]
    · simp only [he, if_neg, not_false_iff]
      have hfm : room.filterMap (send_to_one exclude (fun _ => false)) = [] := by
        rw [List.filterMap_eq_nil_iff]
        intro a _
        unfold send_to_one
        by_cases h1 : some a = exclude <;> simp [h1]
      rw [hfm]
      rfl

theorem process_frame_success (l frame_len : Nat) (asr : AsrResult)
    (tr : TranslateResult) (s : WsState) (cum : Nat)
    (hc : ¬ asr.code = some 2001) (ht : ¬ asr.text = "") :
    process_frame l frame_len asr tr (fun _ => false) s cum =
      ⟨none,
       some ⟨l, (getKey l s.seqCounters).getD 0 + 1, cum, cum + frame_len / 32,
             asr.text, tr.text⟩,
       some ⟨l, (getKey l s.seqCounters).getD 0 + 1, cum, cum + frame_len / 32,
             asr.text, tr.text, "realtime"⟩,
       { s with seqCounters := setKey l ((getKey l s.seqCounters).getD 0 + 1) s.seqCounters },
       cum + frame_len / 32⟩ := by
  simp only [process_frame, if_neg hc, if_neg ht, next_seq, broadcast_noFail]

/-- C5: when the ASR text is non-empty but the translation result carries a
non-null error code, the frame is still turned into a subtitle event that is
broadcast and submitted for persistence, and the target-language field
`text_zh` is the empty string in both the broadcast message and the
persisted row. -/
theorem translation_failure_still_broadcasts (l frame_len : Nat) (asr : AsrResult)
    (configured : Bool) (attempts : List HttpAttempt) (s : WsState) (cum : Nat)
    (hcode : ¬ asr.code = some 2001) (htext : ¬ asr.text = "")
    (htr : (translate_text configured asr.text attempts).code ≠ none) :
    (process_frame l frame_len asr (translate_text configured asr.text attempts)
        (fun _ => false) s cum).broadcastMsg =
      some ⟨l, (getKey l s.seqCounters).getD 0 + 1, cum, cum + frame_len / 32,
            asr.text, ""⟩ ∧
    (process_frame l frame_len asr (translate_text configured asr.text attempts)
        (fun _ => false) s cum).persisted =
      some ⟨l, (getKey l s.seqCounters).getD 0 + 1, cum, cum + frame_len / 32,
            asr.text, "", "realtime"⟩ := by
  have hzh := translate_text_code_imp_empty configured asr.text attempts htr
  rw [process_frame_success l frame_len asr _ s cum hcode htext]
  rw [hzh]
  exact ⟨rfl, rfl⟩

theorem translation_failure_still_broadcasts_witness :
    (translate_text false "hi" []).code = some 3001 ∧
    (process_frame 1 16000 ⟨"hi", none, none⟩ (translate_text false "hi" [])
        (fun _ => false) wsEmpty 0).broadcastMsg =
      some ⟨1, 1, 0, 500, "hi", ""⟩ ∧
    (process_frame 1 16000 ⟨"hi", none, none⟩ (translate_text false "hi" [])
        (fun _ => false) wsEmpty 0).persisted =
      some ⟨1, 1, 0, 500, "hi", "", "realtime"⟩ := by
  have h := translation_failure_still_broadcasts 1 16000 ⟨"hi", none, none⟩ false []
    wsEmpty 0 (by decide) (by decide) (by decide)
  exact ⟨by decide, h.1.trans (by decide), h.2.trans (by decide)⟩

/-- C6: an audio frame whose ASR result has empty text and null code
(silence) produces no subtitle event — nothing is broadcast, nothing is
submitted for persistence, no error is sent — and both the `ws.py` state
(hence the session's sequence counter) and the connection's cumulative
offset are unchanged. -/
theorem silence_frame_no_event (l frame_len : Nat) (asr : AsrResult)
    (tr : TranslateResult) (fails : Nat → Bool) (s : WsState) (cum : Nat)
    (htext : asr.text = "") (hcode : asr.code = none) :
    process_frame l frame_len asr tr fails s cum = ⟨none, none, none, s, cum⟩ := by
  simp [process_frame, hcode, htext]

theorem silence_frame_no_event_witness :
    process_frame 1 16000 ⟨"", none, none⟩ ⟨"", none, none⟩ (fun _ => true)
        (⟨[(1, [7])], [(1, 5)]⟩ : WsState) 250 =
      ⟨none, none, none, ⟨[(1, [7])], [(1, 5)]⟩, 250⟩ :=
  silence_frame_no_event 1 16000 ⟨"", none, none⟩ ⟨"", none, none⟩ (fun _ => true)
    ⟨[(1, [7])], [(1, 5)]⟩ 250 rfl rfl

theorem getKey_init_seq_counter (l : Nat) (q : Except Unit (List UtteranceRow))
    (s : WsState) (h : getKey l s.seqCounters = none) :
    getKey l (init_seq_counter l q s).seqCounters = some (get_max_seq q l "realtime") := by
  simp [init_seq_counter, h, getKey_setKey_self]

theorem next_seq_fst (l : Nat) (s : WsState) :
    (next_seq l s).1 = (getKey l s.seqCounters).getD 0 + 1 := rfl

/-- C1: when no in-memory counter exists for the session, `init_seq_counter`
seeds the counter with the maximum persisted sequence number of the
"realtime" stream, and the next `next_seq` call returns exactly that
maximum plus one — with maximum 0 (so `next_seq` returning 1) when no
matching events are persisted. -/
theorem init_seeds_max_and_next_returns_succ (l : Nat) (rows : List UtteranceRow)
    (s : WsState) (h : getKey l s.seqCounters = none) :
    getKey l (init_seq_counter l (.ok rows) s).seqCounters =
      some (sql_max_seq rows l "realtime") ∧
    (next_seq l (init_seq_counter l (.ok rows) s)).1 =
      sql_max_seq rows l "realtime" + 1 ∧
    (rows.filter (fun r => decide (r.lecture_id = l ∧ r.source = "realtime")) = [] →
      (next_seq l (init_seq_counter l (.ok rows) s)).1 = 1) := by
  have hseed := getKey_init_seq_counter l (.ok rows) s h
  have hnext : (next_seq l (init_seq_counter l (.ok rows) s)).1 =
      sql_max_seq rows l "realtime" + 1 := by
    rw [next_seq_fst, hseed]
    rfl
  refine ⟨hseed, hnext, ?_⟩
  intro hf
  rw [hnext]
  unfold sql_max_seq
  rw [hf]
  rfl

theorem init_seeds_max_and_next_returns_succ_witness :
    getKey 1 wsEmpty.seqCounters = none ∧
    (next_seq 1 (init_seq_counter 1
        (Except.ok [⟨1, 5, 0, 500, "hello", "", "realtime"⟩]) wsEmpty)).1 = 6 ∧
    (next_seq 2 (init_seq_counter 2 (Except.ok []) wsEmpty)).1 = 1 := by
  have h1 := (init_seeds_max_and_next_returns_succ 1
    [⟨1, 5, 0, 500, "hello", "", "realtime"⟩] wsEmpty rfl).2.1
  have h2 := (init_seeds_max_and_next_returns_succ 2 [] wsEmpty rfl).2.2 rfl
  exact ⟨rfl, h1.trans (by decide), h2⟩

/-- C7: on a connection starting at cumulative offset 0, for a session whose
last persisted "realtime" sequence is `k` and whose in-memory counter was
absent before `init_seq_counter`, two sequentially processed 16000-byte
frames with non-empty ASR text (and all broadcast sends succeeding) yield
events with `start_ms=0, end_ms=500` then `start_ms=500, end_ms=1000` and
sequence numbers `k+1` then `k+2` (duration = byte length / 32). -/
theorem two_frames_timestamps_and_seqs (l k : Nat) (rows : List UtteranceRow)
    (s : WsState) (asr1 asr2 : AsrResult) (tr1 tr2 : TranslateResult)
    (hctr : getKey l s.seqCounters = none)
    (hmax : sql_max_seq rows l "realtime" = k)
    (h1c : ¬ asr1.code = some 2001) (h1t : ¬ asr1.text = "")
    (h2c : ¬ asr2.code = some 2001) (h2t : ¬ asr2.text = "") :
    (process_frame l 16000 asr1 tr1 (fun _ => false)
        (init_seq_counter l (.ok rows) s) 0).broadcastMsg =
      some ⟨l, k + 1, 0, 500, asr1.text, tr1.text⟩ ∧
    (process_frame l 16000 asr2 tr2 (fun _ => false)
        (process_frame l 16000 asr1 tr1 (fun _ => false)
          (init_seq_counter l (.ok rows) s) 0).state
        (process_frame l 16000 asr1 tr1 (fun _ => false)
          (init_seq_counter l (.ok rows) s) 0).cumulative_ms).broadcastMsg =
      some ⟨l, k + 2, 500, 1000, asr2.text, tr2.text⟩ := by
  have hseed := getKey_init_seq_counter l (.ok rows) s hctr
  rw [get_max_seq, hmax] at hseed
  have e1 := process_frame_success l 16000 asr1 tr1
    (init_seq_counter l (.ok rows) s) 0 h1c h1t
  rw [hseed] at e1
  rw [e1]
  have hseed2 : getKey l ({ init_seq_counter l (.ok rows) s with
      seqCounters := setKey l ((some k).getD 0 + 1)
        (init_seq_counter l (.ok rows) s).seqCounters } : WsState).seqCounters =
      some (k + 1) := getKey_setKey_self l _ _
  have e2 := process_frame_success l 16000 asr2 tr2
    ({ init_seq_counter l (.ok rows) s with
      seqCounters := setKey l ((some k).getD 0 + 1)
        (init_seq_counter l (.ok rows) s).seqCounters }) (0 + 16000 / 32) h2c h2t
  rw [hseed2] at e2
  rw [e2]
  constructor
  · rfl
  · rfl

theorem two_frames_timestamps_and_seqs_witness :
    (process_frame 1 16000 ⟨"one", none, none⟩ ⟨"", none, none⟩ (fun _ => false)
        (init_seq_counter 1 (Except.ok [⟨1, 5, 0, 500, "x", "", "realtime"⟩]) wsEmpty)
        0).broadcastMsg =
      some ⟨1, 6, 0, 500, "one", ""⟩ ∧
    (process_frame 1 16000 ⟨"two", none, none⟩ ⟨"", none, none⟩ (fun _ => false)
        (process_frame 1 16000 ⟨"one", none, none⟩ ⟨"", none, none⟩ (fun _ => false)
          (init_seq_counter 1 (Except.ok [⟨1, 5, 0, 500, "x", "", "realtime"⟩]) wsEmpty)
          0).state
        (process_frame 1 16000 ⟨"one", none, none⟩ ⟨"", none, none⟩ (fun _ => false)
          (init_seq_counter 1 (Except.ok [⟨1, 5, 0, 500, "x", "", "realtime"⟩]) wsEmpty)
          0).cumulative_ms).broadcastMsg =
      some ⟨1, 7, 500, 1000, "two", ""⟩ := by
  have h := two_frames_timestamps_and_seqs 1 5 [⟨1, 5, 0, 500, "x", "", "realtime"⟩]
    wsEmpty ⟨"one", none, none⟩ ⟨"two", none, none⟩ ⟨"", none, none⟩ ⟨"", none, none⟩
    rfl (by decide) (by decide) (by decide) (by decide) (by decide)
  exact ⟨h.1, h.2⟩

theorem init_le_foldl_max (xs : List Nat) : ∀ b, b ≤ xs.foldl max b := by
  induction xs with
  | nil => intro b; exact Nat.le_refl b
  | cons x xs ih =>
    intro b
    calc b ≤ max b x := Nat.le_max_left b x
    _ ≤ xs.foldl max (max b x) := ih (max b x)

theorem le_foldl_max (a : Nat) (xs : List Nat) (h : a ∈ xs) :
    ∀ b, a ≤ xs.foldl max b := by
  induction xs with
  | nil => cases h
  | cons x xs ih =>
    intro b
    rcases List.mem_cons.mp h with rfl | hmem
    · calc a ≤ max b a := Nat.le_max_right b a
      _ ≤ xs.foldl max (max b a) := init_le_foldl_max xs (max b a)
    · exact ih hmem (max b x)

/-- C10: when the max-seq query raises, `get_max_seq` swallows the error and
returns 0, so `init_seq_counter` seeds the counter at 0 exactly as for a
fresh session, and the next issued sequence number (1) can duplicate an
already-persisted one even though the true persisted maximum is ≥ 1. -/
theorem db_error_seeds_zero_and_can_duplicate (l : Nat) (s : WsState)
    (rows : List UtteranceRow) (r : UtteranceRow)
    (hctr : getKey l s.seqCounters = none) (hr : r ∈ rows)
    (hrl : r.lecture_id = l) (hrs : r.source = "realtime") (hrseq : r.seq = 1) :
    get_max_seq (.error ()) l "realtime" = 0 ∧
    getKey l (init_seq_counter l (.error ()) s).seqCounters = some 0 ∧
    (next_seq l (init_seq_counter l (.error ()) s)).1 = r.seq ∧
    1 ≤ sql_max_seq rows l "realtime" := by
  have hseed := getKey_init_seq_counter l (.error ()) s hctr
  refine ⟨rfl, hseed, ?_, ?_⟩
  · rw [next_seq_fst, hseed, hrseq]
    rfl
  · have hmem : r.seq ∈ (rows.filter
        (fun r => decide (r.lecture_id = l ∧ r.source = "realtime"))).map
        (fun r => r.seq) :=
      List.mem_map_of_mem _ (List.mem_filter.mpr ⟨hr, by simp [hrl, hrs]⟩)
    have := le_foldl_max r.seq _ hmem 0
    rw [hrseq] at this
    exact this

theorem db_error_seeds_zero_and_can_duplicate_witness :
    getKey 1 (init_seq_counter 1 (Except.error ()) wsEmpty).seqCounters = some 0 ∧
    (next_seq 1 (init_seq_counter 1 (Except.error ()) wsEmpty)).1 = 1 ∧
    1 ≤ sql_max_seq [⟨1, 1, 0, 500, "x", "", "realtime"⟩] 1 "realtime" := by
  have h := db_error_seeds_zero_and_can_duplicate 1 wsEmpty
    [⟨1, 1, 0, 500, "x", "", "realtime"⟩] ⟨1, 1, 0, 500, "x", "", "realtime"⟩
    rfl (List.mem_singleton.mpr rfl) rfl rfl rfl
  exact ⟨h.2.1, h.2.2.1, h.2.2.2⟩

/-- C2: broadcasting with some sends failing attempts delivery to every
non-excluded handle in the room snapshot (no handle is skipped because
another handle's send failed), and afterwards exactly the handles whose
sends failed have been removed from the room via `leave_room`; handles whose
sends succeeded remain joined. -/
theorem broadcast_failure_isolation (s : WsState) (l : Nat) (exclude : Option Nat)
    (fails : Nat → Bool) (room : List Nat)
    (h : getKey l s.rooms = some room) (hnd : room.Nodup) :
    (∀ ws ∈ room, some ws ≠ exclude →
      ws ∈ (broadcast_run l exclude fails s).2.1) ∧
    (∀ ws, ws ∈ (broadcast_run l exclude fails s).2.2 ↔
      ws ∈ room ∧ some ws ≠ exclude ∧ fails ws = true) ∧
    (∀ ws, memRoom (broadcast_run l exclude fails s).1 l ws ↔
      ws ∈ room ∧ ¬(some ws ≠ exclude ∧ fails ws = true)) := by
  have hnd' : ∀ r, getKey l s.rooms = some r → r.Nodup := by
    intro r hr
    rw [h] at hr
    cases hr
    exact hnd
  have hdead : ∀ ws, ws ∈ room.filterMap (send_to_one exclude fails) ↔
      ws ∈ room ∧ some ws ≠ exclude ∧ fails ws = true := by
    intro ws
    rw [List.mem_filterMap]
    constructor
    · rintro ⟨a, ha, hsa⟩
      obtain ⟨rfl, hx, hf⟩ := (send_to_one_eq_some exclude fails a ws).mp hsa
      exact ⟨ha, hx, hf⟩
    · rintro ⟨hmem, hx, hf⟩
      exact ⟨ws, hmem, (send_to_one_eq_some exclude fails ws ws).mpr ⟨rfl, hx, hf⟩⟩
  by_cases he : room = []
  · subst he
    have hrun : broadcast_run l exclude fails s = (s, [], []) := by
      unfold broadcast_run
      rw [h]
      rfl
    rw [hrun]
    refine ⟨?_, ?_, ?_⟩
    · intro ws hws
      cases hws
    · intro ws
      simp
    · intro ws
      simp [memRoom, h]
  · have hrun : broadcast_run l exclude fails s =
        ((room.filterMap (send_to_one exclude fails)).foldl
            (fun st ws => leave_room l ws st) s,
         room.filter (fun ws => decide (some ws ≠ exclude)),
         room.filterMap (send_to_one exclude fails)) := by
      unfold broadcast_run
      rw [h]
      simp [he]
    rw [hrun]
    refine ⟨?_, ?_, ?_⟩
    · intro ws hws hex
      simp only [List.mem_filter]
      exact ⟨hws, by simpa using hex⟩
    · exact hdead
    · intro ws
      rw [memRoom_foldl_leave l ws _ s hnd']
      have hm : memRoom s l ws ↔ ws ∈ room := by
        unfold memRoom
        rw [h]
        exact Iff.rfl
      rw [hm, hdead ws]
      constructor
      · rintro ⟨hmem, hnd2⟩
        exact ⟨hmem, fun hc => hnd2 ⟨hmem, hc.1, hc.2⟩⟩
      · rintro ⟨hmem, hnc⟩
        exact ⟨hmem, fun hc => hnc ⟨hc.2.1, hc.2.2⟩⟩

theorem broadcast_failure_isolation_witness :
    (10 ∈ (broadcast_run 1 none (fun ws => ws == 20)
        (⟨[(1, [10, 20, 30])], [(1, 5)]⟩ : WsState)).2.1 ∧
     30 ∈ (broadcast_run 1 none (fun ws => ws == 20)
        (⟨[(1, [10, 20, 30])], [(1, 5)]⟩ : WsState)).2.1) ∧
    (20 ∈ (broadcast_run 1 none (fun ws => ws == 20)
        (⟨[(1, [10, 20, 30])], [(1, 5)]⟩ : WsState)).2.2) ∧
    memRoom (broadcast_run 1 none (fun ws => ws == 20)
        (⟨[(1, [10, 20, 30])], [(1, 5)]⟩ : WsState)).1 1 10 ∧
    ¬ memRoom (broadcast_run 1 none (fun ws => ws == 20)
        (⟨[(1, [10, 20, 30])], [(1, 5)]⟩ : WsState)).1 1 20 := by
  have h := broadcast_failure_isolation ⟨[(1, [10, 20, 30])], [(1, 5)]⟩ 1 none
    (fun ws => ws == 20) [10, 20, 30] rfl (by decide)
  refine ⟨⟨?_, ?_⟩, ?_, ?_, ?_⟩
  · exact h.1 10 (by decide) (by decide)
  · exact h.1 30 (by decide) (by decide)
  · exact (h.2.1 20).mpr (by decide)
  · exact (h.2.2 10).mpr (by decide)
  · intro hc
    exact absurd ((h.2.2 20).mp hc) (by decide)

theorem getKey_rooms_leave_room_other (l l' ws : Nat) (s : WsState) (h : l' ≠ l) :
    getKey l' (leave_room l ws s).rooms = getKey l' s.rooms := by
  unfold leave_room
  by_cases he : ((getKey l s.rooms).getD []).erase ws = []
  · simp [he, getKey_eraseKey_ne _ _ _ h]
  · simp [he, getKey_setKey_ne _ _ _ _ h]

theorem noEmptyRooms_join_room (l ws : Nat) (s : WsState) (hs : noEmptyRooms s) :
    noEmptyRooms (join_room l ws s) := by
  intro l' r' hr'
  unfold join_room at hr'
  by_cases hl : l' = l
  · subst hl
    rw [getKey_setKey_self] at hr'
    cases hr'
    by_cases hm : ws ∈ (getKey l' s.rooms).getD []
    · rw [List.insert_of_mem hm]
      exact List.ne_nil_of_mem hm
    · rw [List.insert_of_not_mem hm]
      exact List.cons_ne_nil ws _
  · rw [getKey_setKey_ne _ _ _ _ hl] at hr'
    exact hs l' r' hr'

theorem noEmptyRooms_leave_room (l ws : Nat) (s : WsState) (hs : noEmptyRooms s) :
    noEmptyRooms (leave_room l ws s) := by
  intro l' r' hr'
  by_cases hl : l' = l
  · subst hl
    cases hroom : getKey l' s.rooms with
    | none =>
      rw [getKey_rooms_leave_room_none l' ws s hroom] at hr'
      cases hr'
    | some r =>
      rw [getKey_rooms_leave_room_some l' ws s r hroom] at hr'
      by_cases he : r.erase ws = []
      · rw [if_pos he] at hr'
        cases hr'
      · rw [if_neg he] at hr'
        cases hr'
        exact he
  · rw [getKey_rooms_leave_room_other l l' ws s hl] at hr'
    exact hs l' r' hr'

theorem noEmptyRooms_foldl_leave (l : Nat) (ds : List Nat) (s : WsState)
    (hs : noEmptyRooms s) :
    noEmptyRooms (ds.foldl (fun st ws => leave_room l ws st) s) := by
  induction ds generalizing s with
  | nil => exact hs
  | cons d ds ih =>
    rw [List.foldl_cons]
    exact ih (leave_room l d s) (noEmptyRooms_leave_room l d s hs)

/-- C4: starting from a registry with no empty room bucket, none of
`join_room`, `leave_room` or `broadcast` creates one; and when `leave_room`
removes the last handle of a session, the same call deletes the session's
bucket and drops the session's sequence-counter entry. -/
theorem registry_no_empty_rooms (s : WsState) (hs : noEmptyRooms s) :
    (∀ l ws, noEmptyRooms (join_room l ws s)) ∧
    (∀ l ws, noEmptyRooms (leave_room l ws s)) ∧
    (∀ l exclude fails, noEmptyRooms (broadcast l exclude fails s)) ∧
    (∀ l ws, getKey l s.rooms = some [ws] →
      leave_room l ws s =
        ⟨eraseKey l s.rooms, eraseKey l s.seqCounters⟩) := by
  refine ⟨?_, ?_, ?_, ?_⟩
  · intro l ws
    exact noEmptyRooms_join_room l ws s hs
  · intro l ws
    exact noEmptyRooms_leave_room l ws s hs
  · intro l exclude fails
    unfold broadcast broadcast_run
    cases hroom : getKey l s.rooms with
    | none => exact hs
    | some r =>
      by_cases he : r = []
      · simp only [he, if_pos]
        exact hs
      · simp only [if_neg he]
        exact noEmptyRooms_foldl_leave l _ s hs
  · intro l ws hsingle
    unfold leave_room
    rw [hsingle]
    simp

theorem registry_no_empty_rooms_witness :
    leave_room 1 7 (⟨[(1, [7])], [(1, 3)]⟩ : WsState) = (⟨[], []⟩ : WsState) := by
  have hs : noEmptyRooms (⟨[(1, [7])], [(1, 3)]⟩ : WsState) := by
    intro l r hr
    simp only [getKey] at hr
    by_cases h1 : (1 : Nat) = l
    · rw [if_pos h1] at hr
      cases hr
      simp
    · rw [if_neg h1] at hr
      cases hr
  have h := (registry_no_empty_rooms ⟨[(1, [7])], [(1, 3)]⟩ hs).2.2.2 1 7 rfl
  exact h.trans rfl

/-- C3 counterexample: on the empty state, where session 1 has no in-memory
counter (so `initialize` has not run), the spec's contract demands a
`SessionNotInitialized` failure, but the source's `next_seq` succeeds and
returns the number 1. -/
theorem next_seq_uninitialized_returns_number :
    getKey 1 wsEmpty.seqCounters = none ∧
    next_seq_specContract 1 wsEmpty = none ∧
    next_seq 1 wsEmpty = (1, (⟨[], [(1, 1)]⟩ : WsState)) :=
  ⟨rfl, rfl, rfl⟩

/-- C3 amended: `next_seq` on a session whose counter entry does not exist
does not fail: it treats the missing counter as 0, stores 1 as the session's
counter, and returns 1. -/
theorem next_seq_uninitialized_returns_one (l : Nat) (s : WsState)
    (h : getKey l s.seqCounters = none) :
    next_seq l s = (1, { s with seqCounters := setKey l 1 s.seqCounters }) := by
  simp [next_seq, h]

theorem next_seq_uninitialized_returns_one_witness :
    getKey 5 (⟨[(5, [9])], [(4, 2)]⟩ : WsState).seqCounters = none ∧
    next_seq 5 (⟨[(5, [9])], [(4, 2)]⟩ : WsState) =
      (1, (⟨[(5, [9])], [(4, 2), (5, 1)]⟩ : WsState)) := by
  have h := next_seq_uninitialized_returns_one 5 ⟨[(5, [9])], [(4, 2)]⟩ rfl
  exact ⟨rfl, h.trans (by decide)⟩

/-- C8 counterexample: leaving an unjoined handle is not always a no-op on
the whole registry state — on a state holding a sequence counter for session
1 but no room bucket, `leave_room 1 99` deletes the counter entry. -/
theorem leave_room_unjoined_not_noop :
    ¬ memRoom (⟨[], [(1, 5)]⟩ : WsState) 1 99 ∧
    leave_room 1 99 (⟨[], [(1, 5)]⟩ : WsState) = (⟨[], []⟩ : WsState) ∧
    (⟨[], []⟩ : WsState) ≠ (⟨[], [(1, 5)]⟩ : WsState) := by
  refine ⟨?_, ?_, ?_⟩ <;> decide

/-- C8 amended: `leave_room` for a handle not joined to session `s` leaves
the room registry unchanged; when the session's room exists (hence is
non-empty after discarding the unjoined handle) the whole state — sequence
counters included — is unchanged, but when the session has no room bucket the
call still drops the session's sequence-counter entry. -/
theorem leave_room_unjoined (l ws : Nat) (s : WsState) (h : ¬ memRoom s l ws) :
    (∀ r, getKey l s.rooms = some r → r ≠ [] → leave_room l ws s = s) ∧
    (getKey l s.rooms = none →
      leave_room l ws s = { s with seqCounters := eraseKey l s.seqCounters }) := by
  constructor
  · intro r hr hne
    have hmem : ws ∉ r := by
      intro hc
      exact h (by unfold memRoom; rw [hr]; exact hc)
    unfold leave_room
    rw [hr]
    simp only [Option.getD_some]
    rw [List.erase_of_not_mem hmem]
    rw [if_neg hne]
    rw [setKey_of_getKey_some l r s.rooms hr]
  · intro hr
    unfold leave_room
    rw [hr]
    simp only [Option.getD_none, List.erase_nil, if_pos]
    rw [eraseKey_of_getKey_none l s.rooms hr]

theorem leave_room_unjoined_witness :
    ¬ memRoom (⟨[(1, [7])], [(1, 3)]⟩ : WsState) 1 99 ∧
    leave_room 1 99 (⟨[(1, [7])], [(1, 3)]⟩ : WsState) = ⟨[(1, [7])], [(1, 3)]⟩ :=
  ⟨by decide, (leave_room_unjoined 1 99 ⟨[(1, [7])], [(1, 3)]⟩ (by decide)).1 [7]
    rfl (by decide)⟩

/-- C9 counterexample: the registry itself does not enforce the
at-most-one-room invariant — joining handle 7 to session 1 and then to
session 2 (both joins permitted by `join_room`) reaches a state where the
handle is in both rooms. -/
theorem handle_in_two_rooms :
    Reachable (join_room 2 7 (join_room 1 7 wsEmpty)) ∧
    memRoom (join_room 2 7 (join_room 1 7 wsEmpty)) 1 7 ∧
    memRoom (join_room 2 7 (join_room 1 7 wsEmpty)) 2 7 ∧
    ¬ atMostOneRoom (join_room 2 7 (join_room 1 7 wsEmpty)) := by
  refine ⟨Reachable.join 2 7 (Reachable.join 1 7 Reachable.init),
    by decide, by decide, ?_⟩
  intro hc
  have h12 := hc 1 2 7 (by decide) (by decide)
  exact absurd h12 (by decide)

theorem memRoom_join_room_self (l ws w : Nat) (s : WsState) :
    memRoom (join_room l ws s) l w ↔ w = ws ∨ memRoom s l w := by
  unfold memRoom join_room
  simp [getKey_setKey_self, List.mem_insert_iff]

theorem memRoom_join_room_other (l l' ws w : Nat) (s : WsState) (h : l' ≠ l) :
    memRoom (join_room l ws s) l' w ↔ memRoom s l' w := by
  unfold memRoom join_room
  rw [getKey_setKey_ne _ _ _ _ h]

theorem memRoom_leave_room_subset (l l' ws w : Nat) (s : WsState) :
    memRoom (leave_room l ws s) l' w → memRoom s l' w := by
  by_cases hl : l' = l
  · subst hl
    unfold memRoom
    cases hroom : getKey l' s.rooms with
    | none =>
      rw [getKey_rooms_leave_room_none _ _ _ hroom]
      simp
    | some r =>
      rw [getKey_rooms_leave_room_some _ _ _ _ hroom]
      by_cases he : r.erase ws = []
      · rw [if_pos he]
        simp
      · rw [if_neg he]
        intro hw
        simp only [Option.getD_some] at hw ⊢
        exact List.mem_of_mem_erase hw
  · unfold memRoom
    rw [getKey_rooms_leave_room_other l l' ws s hl]
    exact id

/-- C9 amended: `join_room` does not remove a handle from other rooms, so the
at-most-one-room invariant only holds for call sequences respecting the
intended discipline (as `lecture_socket` does): a handle is joined only while
it is in no room. Every state reachable under that discipline has each handle
in at most one room. -/
theorem disciplined_at_most_one_room (s : WsState)
    (h : ReachableDisciplined s) : atMostOneRoom s := by
  induction h with
  | init =>
    intro l1 l2 w h1 h2
    exact absurd h1 (by simp [memRoom, wsEmpty, getKey])
  | @join l ws s hre hnone ih =>
    intro l1 l2 w h1 h2
    by_cases hl1 : l1 = l
    · by_cases hl2 : l2 = l
      · rw [hl1, hl2]
      · rw [hl1] at h1
        rw [memRoom_join_room_self] at h1
        rw [memRoom_join_room_other l l2 ws w s hl2] at h2
        rcases h1 with rfl | h1
        · exact absurd h2 (hnone l2)
        · exact hl1.trans (ih l l2 w h1 h2)
    · by_cases hl2 : l2 = l
      · rw [hl2] at h2
        rw [memRoom_join_room_other l l1 ws w s hl1] at h1
        rw [memRoom_join_room_self] at h2
        rcases h2 with rfl | h2
        · exact absurd h1 (hnone l1)
        · exact (ih l1 l w h1 h2).trans hl2.symm
      · rw [memRoom_join_room_other l l1 ws w s hl1] at h1
        rw [memRoom_join_room_other l l2 ws w s hl2] at h2
        exact ih l1 l2 w h1 h2
  | @leave l ws s hre ih =>
    intro l1 l2 w h1 h2
    exact ih l1 l2 w (memRoom_leave_room_subset l l1 ws w s h1)
      (memRoom_leave_room_subset l l2 ws w s h2)

theorem disciplined_at_most_one_room_witness :
    atMostOneRoom (join_room 1 7 wsEmpty) :=
  disciplined_at_most_one_room (join_room 1 7 wsEmpty)
    (ReachableDisciplined.join 1 7 ReachableDisciplined.init
      (fun l' => by simp [memRoom, wsEmpty, getKey]))

end Echo
